import Mathlib

/-!
Shallow embedding of the Autores backend (Twitter-mention tracker).

Sources embedded:
* `app/models/enums.py`, `app/models/account.py`, `app/models/message.py`,
  `app/models/oauth_state.py` — the data model;
* `app/services/twitter.py` — `TwitterService.verify_token`,
  `TwitterService.refresh_token`, `TwitterService.fetch_mentions`;
* `app/services/scheduler.py` — `SchedulerService.poll_mentions`,
  `SchedulerService.refresh_tokens`;
* `app/api/v1/endpoints/auth.py` — `twitter_callback`, `refresh_token`
  (the standalone POST /refresh handler).

Conventions of the embedding:
* `datetime.utcnow()` is a parameter `now : Int` (seconds); `timedelta`
  arithmetic becomes integer arithmetic on seconds.
* HTTP interactions are parameters: each external request's outcome is a
  field of an environment record (`none` models a network error that raises
  inside the `httpx` call; a record with a `status_code` models a response).
* A JSON payload field that the Python code reads with `d['k']` (KeyError on
  absence) or `d.get('k')` is an `Option` field of the response record.
* MongoDB collections are Lean lists; `document.save()` is modelled by
  returning the persisted document (and the updated collection where the
  claims need it).  Each service function distinguishes the in-memory
  mutated object (`mem`) from the persisted row (`saved`), because the
  Python code mutates the shared object before deciding whether to save.
* Exception messages keep the literal text of the Python sources where the
  claims inspect them (quote characters of Python reprs are elided; no
  claim depends on them).
-/

/-- `AccountSyncStatus` from `app/models/enums.py`. -/
inductive AccountSyncStatus where
  | active
  | paused
  | error
  | token_expired
  | rate_limited
deriving DecidableEq, Repr

/-- `MessageStatus` from `app/models/enums.py` (only the value used by the
fetcher matters here). -/
inductive MessageStatus where
  | pending
  | processing
  | replied
  | ignored
  | error
deriving DecidableEq, Repr

/-- The `Account` document from `app/models/account.py`.  `refresh_token`
is declared `str` in the model, but the callback's re-authorization path
assigns `token_data.get('refresh_token')`, which can be Python `None`
(pydantic does not validate on assignment), so the embedding gives the
field type `Option String`. -/
structure Account where
  id : String
  twitter_id : String
  twitter_username : String
  display_name : Option String
  profile_image_url : Option String
  access_token : String
  refresh_token : Option String
  token_expires_at : Int
  is_active : Bool
  sync_status : AccountSyncStatus
  error_message : Option String
  added_by : Option String
  last_synced_at : Option Int
  total_mentions_tracked : Nat
  updated_at : Int
deriving DecidableEq, Repr

/-- The `Message` document from `app/models/message.py`, restricted to the
fields the fetch loop writes (sender/recipient embedded documents are
flattened to the identifying fields). -/
structure Message where
  tweet_id : String
  text : String
  sender_twitter_id : String
  sent_to_account_id : String
  status : MessageStatus
deriving DecidableEq, Repr

/-- The `OAuthState` document from `app/models/oauth_state.py`. -/
structure OAuthState where
  state : String
  code_verifier : String
  app_user_id : Option String
  created_at : Int
deriving DecidableEq, Repr

/-- A response of the POST `https://api.twitter.com/2/oauth2/token`
endpoint as the code reads it: `status_code`, and the JSON fields
`access_token`, `refresh_token`, `expires_in` (each `none` when absent
from the payload). -/
structure TokenResponse where
  status_code : Nat
  access_token : Option String
  refresh_token : Option String
  expires_in : Option Int
deriving DecidableEq, Repr

/-- One element of the `data` array of a mentions response
(`tweet.fields=created_at,author_id,text`). -/
structure Mention where
  id : String
  author_id : String
  text : String
deriving DecidableEq, Repr

/-- A response of the GET `/2/users/{id}/mentions` request.  `error_text`
stands for the string representation of `response.json()` that the code
interpolates into the exception it raises on a non-200 status. -/
structure MentionsResponse where
  status_code : Nat
  data : List Mention
  error_text : String
deriving DecidableEq, Repr

/-- The external-request outcomes one `fetch_mentions` call can consume:
the GET `/2/users/me` verification result (when the token is not yet
expired), the token-endpoint response for the refresh attempt (`none` =
network error), and the mentions request outcome (`.error s` = network
error whose `str(e)` is `s`). -/
structure FetchEnv where
  verify_api_ok : Bool
  refresh_resp : Option TokenResponse
  mentions_resp : Except String MentionsResponse
deriving Repr

/-- Python string slicing `s[:n]` (by characters). -/
def strTake (s : String) (n : Nat) : String :=
  ⟨s.data.take n⟩

/-- Python's `needle in hay` substring test. -/
def containsSub (hay needle : String) : Bool :=
  decide (needle.data <:+: hay.data)

namespace TwitterService

/-- `TwitterService.verify_token`: `False` when
`datetime.utcnow() >= token_expires_at`, otherwise the result of the
GET `/2/users/me` check. -/
def verify_token (now : Int) (token_expires_at : Int) (api_ok : Bool) : Bool :=
  if token_expires_at ≤ now then false else api_ok

/-- Result of one `TwitterService.refresh_token` call: the returned
boolean, the in-memory `account` object after the call, and the persisted
row after the call (equal to the input row unless `account.save()` ran). -/
structure RefreshResult where
  success : Bool
  mem : Account
  saved : Account
deriving DecidableEq, Repr

/-- `TwitterService.refresh_token` (`app/services/twitter.py`).
`resp = none` models a network error raised by `client.post` (caught by
the blanket `except`, returning `False`).  On a 200 response the code
assigns `token_data['access_token']` (KeyError when absent, before any
mutation), then `token_data.get('refresh_token', account.refresh_token)`,
then `token_data['expires_in']` (KeyError when absent, after the first two
assignments already mutated the in-memory object but before `save()`). -/
def refresh_token (now : Int) (account : Account) (resp : Option TokenResponse) :
    RefreshResult :=
  match resp with
  | none => ⟨false, account, account⟩
  | some tr =>
    if tr.status_code ≠ 200 then ⟨false, account, account⟩
    else
      match tr.access_token with
      | none => ⟨false, account, account⟩
      | some tok =>
        let a1 := { account with
          access_token := tok
          refresh_token := match tr.refresh_token with
            | some rt => some rt
            | none => account.refresh_token }
        match tr.expires_in with
        | none => ⟨false, a1, account⟩
        | some ei =>
          let a2 := { a1 with
            token_expires_at := now + ei
            sync_status := AccountSyncStatus.active
            error_message := none }
          ⟨true, a2, a2⟩

/-- Observable service/HTTP actions, used to state which accounts a poll
cycle touches:
* `fetchCall id` — `TwitterService.fetch_mentions` entered for account `id`;
* `refreshCall id` — `TwitterService.refresh_token` entered for account `id`;
* `mentionsReq id` — the GET `/2/users/{id}/mentions` request was issued. -/
inductive Ev where
  | fetchCall (id : String)
  | refreshCall (id : String)
  | mentionsReq (id : String)
deriving DecidableEq, Repr

/-- The account id an event concerns. -/
def Ev.accId : Ev → String
  | Ev.fetchCall i => i
  | Ev.refreshCall i => i
  | Ev.mentionsReq i => i

/-- The `Message` document the fetch loop builds for a mention it has not
seen (`uuid`, timestamps and profile fields elided). -/
def mkMessage (account : Account) (m : Mention) : Message :=
  { tweet_id := m.id
    text := m.text
    sender_twitter_id := m.author_id
    sent_to_account_id := account.id
    status := MessageStatus.pending }

/-- The body of the `for mention in mentions_data.get('data', [])` loop of
`fetch_mentions`: a mention whose `tweet_id` already has a `Message` row is
skipped, otherwise a new row is inserted and collected into
`new_messages`.  Returns `(new_messages, updated collection)`. -/
def insertMentions (account : Account) (db : List Message) :
    List Mention → List Message × List Message
  | [] => ([], db)
  | m :: ms =>
    if db.any (fun msg => msg.tweet_id == m.id) then
      insertMentions account db ms
    else
      let msg := mkMessage account m
      let (news, db2) := insertMentions account (db ++ [msg]) ms
      (msg :: news, db2)

/-- Result of one `fetch_mentions` call: `.ok (new_messages, saved)` where
`saved` is the account row persisted by the trailing
`account.total_mentions_tracked += len(new_messages); await account.save()`,
or `.error (str(e), mem)` where `mem` is the in-memory account object at
the time the wrapped exception propagates; plus the message collection and
the emitted events. -/
structure FetchRes where
  result : Except (String × Account) (List Message × Account)
  db : List Message
  events : List Ev
deriving Repr

/-- The part of `fetch_mentions` after the token check: issue the mentions
request, fail on network error or non-200, otherwise run the insert loop
and persist the incremented `total_mentions_tracked`.  Every raised
exception is re-wrapped as `Failed to fetch mentions: {str(e)}` by the
outer `except` of `fetch_mentions`. -/
def fetch_core (account : Account) (db : List Message) (env : FetchEnv)
    (evs : List Ev) : FetchRes :=
  match env.mentions_resp with
  | Except.error s =>
    { result := Except.error ("Failed to fetch mentions: " ++ s, account)
      db := db
      events := evs ++ [Ev.mentionsReq account.id] }
  | Except.ok resp =>
    if resp.status_code ≠ 200 then
      { result := Except.error
          ("Failed to fetch mentions: Failed to fetch mentions, " ++ resp.error_text,
           account)
        db := db
        events := evs ++ [Ev.mentionsReq account.id] }
    else
      let p := insertMentions account db resp.data
      let a2 := { account with
        total_mentions_tracked := account.total_mentions_tracked + p.1.length }
      { result := Except.ok (p.1, a2)
        db := p.2
        events := evs ++ [Ev.mentionsReq account.id] }

/-- `TwitterService.fetch_mentions` (`app/services/twitter.py`): verify the
token; when invalid, attempt a refresh and raise
`Failed to refresh token` (wrapped by the outer `except` into
`Failed to fetch mentions: Failed to refresh token`) when the refresh
fails; otherwise issue the mentions request and store the unseen
mentions. -/
def fetch_mentions (now : Int) (account : Account) (db : List Message)
    (env : FetchEnv) : FetchRes :=
  if verify_token now account.token_expires_at env.verify_api_ok then
    fetch_core account db env [Ev.fetchCall account.id]
  else
    let r := refresh_token now account env.refresh_resp
    if r.success then
      fetch_core r.mem db env [Ev.fetchCall account.id, Ev.refreshCall account.id]
    else
      { result := Except.error ("Failed to fetch mentions: Failed to refresh token", r.mem)
        db := db
        events := [Ev.fetchCall account.id, Ev.refreshCall account.id] }

end TwitterService

namespace SchedulerService

open TwitterService

/-- The account object `poll_mentions` holds when it calls
`fetch_mentions`: the body first runs
`if account.token_expires_at <= utcnow() + timedelta(minutes=5):
 await twitter_service.refresh_token(account)` (return value ignored). -/
def poll_pre (now : Int) (account : Account) (env : FetchEnv) : Account :=
  if account.token_expires_at ≤ now + 5 * 60 then
    (refresh_token now account env.refresh_resp).mem
  else account

/-- Events of the pre-fetch refresh step of `poll_mentions`. -/
def poll_pre_events (now : Int) (account : Account) : List Ev :=
  if account.token_expires_at ≤ now + 5 * 60 then [Ev.refreshCall account.id]
  else []

/-- One iteration of the account loop of `SchedulerService.poll_mentions`
for an active account: optional refresh, fetch, then on success set
`last_synced_at`/`sync_status=ACTIVE`/clear `error_message` and save; on an
exception set `sync_status=ERROR` and `error_message=str(e)[:500]` and
save, and when `"Too Many Requests" in str(e)` additionally set
`sync_status=RATE_LIMITED`, save again, and `break`.  Returns
`(persisted account, message collection, break?, events)`. -/
def poll_account (now : Int) (account : Account) (env : FetchEnv)
    (db : List Message) : Account × List Message × Bool × List Ev :=
  let pre := poll_pre now account env
  let evs0 := poll_pre_events now account
  let fr := fetch_mentions now pre db env
  match fr.result with
  | Except.ok (_, saved) =>
    ({ saved with
        last_synced_at := some now
        sync_status := AccountSyncStatus.active
        error_message := none },
     fr.db, false, evs0 ++ fr.events)
  | Except.error (e, mem) =>
    let errAcc := { mem with
      sync_status := AccountSyncStatus.error
      error_message := some (strTake e 500) }
    if containsSub e "Too Many Requests" then
      ({ errAcc with sync_status := AccountSyncStatus.rate_limited },
       fr.db, true, evs0 ++ fr.events)
    else
      (errAcc, fr.db, false, evs0 ++ fr.events)

/-- Result of a poll cycle: the account rows (in input order), the message
collection, and the emitted events. -/
structure PollRes where
  accounts : List Account
  db : List Message
  events : List Ev
deriving Repr

/-- `SchedulerService.poll_mentions`: the query
`Account.find(Account.is_active == True)` keeps only active accounts, so
an inactive account passes through untouched; active accounts are
processed in order by `poll_account`, and a `break` (rate limit) leaves
every later account untouched. -/
def poll_mentions (now : Int) : List (Account × FetchEnv) → List Message → PollRes
  | [], db => ⟨[], db, []⟩
  | (a, env) :: rest, db =>
    if a.is_active then
      let r := poll_account now a env db
      if r.2.2.1 then
        ⟨r.1 :: rest.map Prod.fst, r.2.1, r.2.2.2⟩
      else
        let tail := poll_mentions now rest r.2.1
        ⟨r.1 :: tail.accounts, tail.db, r.2.2.2 ++ tail.events⟩
    else
      let tail := poll_mentions now rest db
      ⟨a :: tail.accounts, tail.db, tail.events⟩

/-- One iteration of the account loop of `SchedulerService.refresh_tokens`
(the two-hourly sweep) for an active account: when the token expires
within the next hour, call `refresh_token`; on success set
`sync_status=ACTIVE` and clear the error, on failure set
`sync_status=TOKEN_EXPIRED` and `error_message="Failed to refresh token"`;
persist.  (`TwitterService.refresh_token` never raises, so the sweep's
`except` branch is unreachable.) -/
def sweep_account (now : Int) (account : Account) (resp : Option TokenResponse) :
    Account :=
  if account.token_expires_at ≤ now + 3600 then
    let r := refresh_token now account resp
    if r.success then
      { r.mem with
          sync_status := AccountSyncStatus.active
          error_message := none }
    else
      { r.mem with
          sync_status := AccountSyncStatus.token_expired
          error_message := some "Failed to refresh token" }
  else account

/-- `SchedulerService.refresh_tokens`: the sweep over active accounts
(inactive accounts are not returned by the query and pass through). -/
def refresh_tokens (now : Int) : List (Account × Option TokenResponse) → List Account
  | [] => []
  | (a, resp) :: rest =>
    (if a.is_active then sweep_account now a resp else a) :: refresh_tokens now rest

end SchedulerService

namespace Auth

/-- A response of the GET `/2/users/me` user-info request as the callback
reads it (`user_data['data']` fields). -/
structure UserResp where
  status_code : Nat
  twitter_id : String
  username : String
  name : String
  profile_image_url : Option String
deriving DecidableEq, Repr

/-- External-request outcomes a callback can consume: the token-exchange
response and the user-info response (`none` = network error whose
`str(e)` is `net_err`). -/
structure CallbackEnv where
  token_resp : Option TokenResponse
  user_resp : Option UserResp
  net_err : String
deriving Repr

/-- The two collections `twitter_callback` touches. -/
structure DBState where
  states : List OAuthState
  accounts : List Account
deriving DecidableEq, Repr

/-- The handshake lookup of the callback:
`OAuthState.find_one(OAuthState.state == state,
OAuthState.created_at > datetime.utcnow() - timedelta(minutes=10))`. -/
def findValidState (now : Int) (states : List OAuthState) (s : String) :
    Option OAuthState :=
  states.find? (fun os => os.state == s && decide (now - 600 < os.created_at))

/-- Python truthiness of an optional string (`None` and `""` are falsy). -/
def truthyOpt : Option String → Bool
  | none => false
  | some s => !s.isEmpty

/-- The re-authorization branch of the callback: overwrite tokens and
profile fields on the existing account.  `refresh_token` is assigned
`token_data.get('refresh_token')` — with no fallback to the prior value —
so an absent field stores `None`. -/
def reauthUpdate (now : Int) (a : Account) (tok : String) (tr : TokenResponse)
    (ei : Int) (ur : UserResp) (os : OAuthState) : Account :=
  let a1 := { a with
    access_token := tok
    refresh_token := tr.refresh_token
    token_expires_at := now + ei
    twitter_username := ur.username
    display_name := some ur.name
    profile_image_url := ur.profile_image_url
    sync_status := AccountSyncStatus.active
    error_message := none
    updated_at := now }
  if !truthyOpt a1.added_by && truthyOpt os.app_user_id then
    { a1 with added_by := os.app_user_id }
  else a1

/-- The new-account branch of the callback (`Account(...)` constructor;
pydantic rejects `refresh_token=None`, so this branch requires the token
response to carry a refresh token — see `callback_inner`). -/
def newAccount (now : Int) (newId tok rt : String) (ei : Int) (ur : UserResp)
    (os : OAuthState) : Account :=
  { id := newId
    twitter_id := ur.twitter_id
    twitter_username := ur.username
    display_name := some ur.name
    profile_image_url := ur.profile_image_url
    access_token := tok
    refresh_token := some rt
    token_expires_at := now + ei
    is_active := true
    sync_status := AccountSyncStatus.active
    error_message := none
    added_by := os.app_user_id
    last_synced_at := none
    total_mentions_tracked := 0
    updated_at := now }

/-- The body of the `try` of `twitter_callback`
(`app/api/v1/endpoints/auth.py`): validate the handshake, exchange the
code, fetch user info, create or update the account, and delete the used
handshake.  Every raised exception — `HTTPException`s included, since the
blanket `except Exception` catches them — is returned as its `str(e)`
(for an `HTTPException`, Starlette renders `"{status_code}: {detail}"`;
quote characters of `KeyError`/validation reprs are elided).  `newId` is
the `uuid4` drawn for a new account. -/
def callback_inner (now : Int) (newId s : String) (st : DBState)
    (env : CallbackEnv) : Except String (Account × DBState) :=
  match findValidState now st.states s with
  | none => Except.error "400: Invalid or expired state"
  | some os =>
    match env.token_resp with
    | none => Except.error env.net_err
    | some tr =>
      if tr.status_code ≠ 200 then Except.error "400: Failed to get access token"
      else
        match tr.access_token with
        | none => Except.error "KeyError: access_token"
        | some tok =>
          match env.user_resp with
          | none => Except.error env.net_err
          | some ur =>
            if ur.status_code ≠ 200 then Except.error "400: Failed to get user info"
            else
              match st.accounts.find? (fun a => a.twitter_id == ur.twitter_id) with
              | none =>
                match tr.expires_in with
                | none => Except.error "KeyError: expires_in"
                | some ei =>
                  match tr.refresh_token with
                  | none => Except.error "ValidationError: refresh_token is required"
                  | some rt =>
                    let acc := newAccount now newId tok rt ei ur os
                    Except.ok (acc, ⟨st.states.erase os, st.accounts ++ [acc]⟩)
              | some a =>
                match tr.expires_in with
                | none => Except.error "KeyError: expires_in"
                | some ei =>
                  let acc := reauthUpdate now a tok tr ei ur os
                  Except.ok (acc,
                    ⟨st.states.erase os,
                     st.accounts.map
                       (fun b => if b.twitter_id == ur.twitter_id then acc else b)⟩)

/-- `twitter_callback` with its outer `except Exception`: any exception is
re-raised as HTTP 400 with detail
`Failed to authenticate with Twitter: {str(e)}`.  Returns the response
(the persisted account on success) and the collections after the call. -/
def twitter_callback (now : Int) (newId s : String) (st : DBState)
    (env : CallbackEnv) : Except (Nat × String) Account × DBState :=
  match callback_inner now newId s st env with
  | Except.error e =>
    (Except.error (400, "Failed to authenticate with Twitter: " ++ e), st)
  | Except.ok (acc, st2) => (Except.ok acc, st2)

/-- The standalone POST `/refresh` handler (`refresh_token` in
`app/api/v1/endpoints/auth.py`).  After looking up the account, the
handler builds the token request body with `user.refresh_token`, but no
name `user` is in scope, so a `NameError` is raised while the arguments of
`client.post` are evaluated — before any request is sent.  The blanket
`except` re-raises every exception (the 404 `HTTPException` included) as
HTTP 400 with detail `Failed to refresh token: {str(e)}`.  `resp` is what
the token endpoint would answer; the handler never consumes it.  Returns
the error response and the (unchanged) account collection. -/
def refresh_token (account_id : String) (accounts : List Account)
    (resp : Option TokenResponse) : (Nat × String) × List Account :=
  match accounts.find? (fun a => a.id == account_id) with
  | none =>
    ((400, "Failed to refresh token: 404: Account not found or no refresh token available"),
     accounts)
  | some a =>
    if !truthyOpt a.refresh_token then
      ((400, "Failed to refresh token: 404: Account not found or no refresh token available"),
       accounts)
    else
      let _ := resp
      ((400, "Failed to refresh token: name user is not defined"), accounts)

end Auth

/-! ### Concrete fixtures used by witnesses and counterexamples -/

/-- A sample tracked account with a healthy token. -/
def accSample : Account :=
  { id := "a1"
    twitter_id := "t1"
    twitter_username := "u1"
    display_name := none
    profile_image_url := none
    access_token := "tokA"
    refresh_token := some "refA"
    token_expires_at := 1000000
    is_active := true
    sync_status := AccountSyncStatus.active
    error_message := none
    added_by := none
    last_synced_at := none
    total_mentions_tracked := 0
    updated_at := 0 }

/-- An active account whose token expired (relative to `now = 1000`). -/
def accExpired : Account :=
  { accSample with id := "a2", twitter_id := "t2", token_expires_at := 999 }

/-- An environment whose token endpoint answers HTTP 400 on the refresh
attempt. -/
def envRefresh400 : FetchEnv :=
  { verify_api_ok := false
    refresh_resp := some { status_code := 400, access_token := none,
                           refresh_token := none, expires_in := none }
    mentions_resp := Except.error "unreached" }

/-- An environment whose mentions request answers HTTP 429. -/
def envRate429 : FetchEnv :=
  { verify_api_ok := true
    refresh_resp := none
    mentions_resp := Except.ok { status_code := 429, data := [],
                                 error_text := "title, Too Many Requests, status, 429" } }

/-- An environment whose mentions request answers HTTP 200 with one
mention. -/
def envOnePage : FetchEnv :=
  { verify_api_ok := true
    refresh_resp := none
    mentions_resp := Except.ok { status_code := 200,
                                 data := [{ id := "987654", author_id := "555",
                                            text := "hello" }],
                                 error_text := "" } }

/-- A handshake record created at time 0. -/
def osSample : OAuthState :=
  { state := "s1", code_verifier := "v1", app_user_id := some "appu", created_at := 0 }

/-- A token-exchange response that succeeds but omits `refresh_token`. -/
def trNoRefresh : TokenResponse :=
  { status_code := 200, access_token := some "newTok",
    refresh_token := none, expires_in := some 7200 }

/-- A user-info response matching `accSample`'s platform id. -/
def urSample : Auth.UserResp :=
  { status_code := 200, twitter_id := "t1", username := "u1b",
    name := "User One", profile_image_url := none }

/-- A callback environment with a successful exchange that omits
`refresh_token`. -/
def envCbOk : Auth.CallbackEnv :=
  { token_resp := some trNoRefresh, user_resp := some urSample, net_err := "net" }

/-- A callback environment whose token exchange answers HTTP 400. -/
def envCbFail : Auth.CallbackEnv :=
  { token_resp := some { status_code := 400, access_token := none,
                         refresh_token := none, expires_in := none }
    user_resp := none
    net_err := "net" }

/-- A paused account (`is_active = false`). -/
def accInactive : Account :=
  { accSample with id := "a3", twitter_id := "t3", is_active := false }

/-- The spec invariant: an account whose `sync_status` is `rate_limited`
or `error` carries a non-empty `error_message`. -/
def invOK (a : Account) : Prop :=
  a.sync_status = AccountSyncStatus.rate_limited ∨
      a.sync_status = AccountSyncStatus.error →
    ∃ m, a.error_message = some m ∧ m ≠ ""

/-! ### Theorems -/

/-- C4: when `TwitterService.refresh_token` fails (non-2xx response,
network error, or malformed payload), it returns `False` and the persisted
account row — its access and refresh token values included — is exactly
the row before the call: no partial overwrite is saved. -/
theorem refresh_failure_preserves_persisted_state (now : Int) (a : Account)
    (resp : Option TokenResponse)
    (h : (TwitterService.refresh_token now a resp).success = false) :
    (TwitterService.refresh_token now a resp).saved = a := by
  match resp with
  | none => rfl
  | some tr =>
    by_cases h200 : tr.status_code = 200
    · match hat : tr.access_token with
      | none => simp [TwitterService.refresh_token, h200, hat]
      | some tok =>
        match hei : tr.expires_in with
        | none => simp [TwitterService.refresh_token, h200, hat, hei]
        | some ei =>
          exfalso
          simp [TwitterService.refresh_token, h200, hat, hei] at h
    · simp [TwitterService.refresh_token, h200]

/-- Witness for C4: a refresh against a token endpoint answering HTTP 400
leaves `accSample` unchanged. -/
theorem refresh_failure_preserves_persisted_state_witness :
    (TwitterService.refresh_token 0 accSample
      (some { status_code := 400, access_token := none,
              refresh_token := none, expires_in := none })).saved = accSample :=
  refresh_failure_preserves_persisted_state 0 accSample _ (by decide)

/-- C5: when `TwitterService.refresh_token` succeeds (2xx with
`access_token` and `expires_in` present), the persisted row has the new
access token, the response's refresh token when one was returned and the
prior one otherwise, expiry `now + expires_in`, `sync_status = active`,
a cleared `error_message` — and every other field unchanged. -/
theorem refresh_success_updates_only_token_fields (now : Int) (a : Account)
    (tr : TokenResponse) (tok : String) (ei : Int)
    (h200 : tr.status_code = 200) (hat : tr.access_token = some tok)
    (hei : tr.expires_in = some ei) :
    (TwitterService.refresh_token now a (some tr)).success = true ∧
    (TwitterService.refresh_token now a (some tr)).saved =
      { a with
          access_token := tok
          refresh_token := match tr.refresh_token with
            | some rt => some rt
            | none => a.refresh_token
          token_expires_at := now + ei
          sync_status := AccountSyncStatus.active
          error_message := none } := by
  constructor <;> simp [TwitterService.refresh_token, h200, hat, hei]

/-- Witness for C5: a successful refresh of `accSample` whose response
omits `refresh_token` keeps the prior one and updates the token fields. -/
theorem refresh_success_updates_only_token_fields_witness :
    (TwitterService.refresh_token 0 accSample (some trNoRefresh)).success = true ∧
    (TwitterService.refresh_token 0 accSample (some trNoRefresh)).saved =
      { accSample with
          access_token := "newTok"
          refresh_token := match trNoRefresh.refresh_token with
            | some rt => some rt
            | none => accSample.refresh_token
          token_expires_at := 0 + 7200
          sync_status := AccountSyncStatus.active
          error_message := none } :=
  refresh_success_updates_only_token_fields 0 accSample trNoRefresh "newTok" 7200
    rfl rfl rfl

/-- C9: the standalone POST `/refresh` handler responds HTTP 400 for every
`account_id`, every account collection and every would-be token-endpoint
response (it evaluates the undefined name `user` while building the
request, so it can never succeed), and it leaves the account collection —
its persisted tokens in particular — unchanged. -/
theorem refresh_endpoint_always_fails (account_id : String)
    (accounts : List Account) (resp : Option TokenResponse) :
    (Auth.refresh_token account_id accounts resp).1.1 = 400 ∧
    (Auth.refresh_token account_id accounts resp).2 = accounts := by
  match hf : accounts.find? (fun a => a.id == account_id) with
  | none => simp [Auth.refresh_token, hf]
  | some a =>
    by_cases ht : Auth.truthyOpt a.refresh_token <;>
      simp [Auth.refresh_token, hf, ht]

/-- C10: a successful callback for an already-known platform id assigns
the response's `refresh_token` with no fallback — a response omitting it
stores `None` — while the refresh-grant path
(`TwitterService.refresh_token`) keeps the prior value on the same
response. -/
theorem callback_reauth_overwrites_refresh_token (now : Int) (newId s : String)
    (st : Auth.DBState) (env : Auth.CallbackEnv) (os : OAuthState)
    (tr : TokenResponse) (tok : String) (ur : Auth.UserResp) (a : Account)
    (ei : Int) (rt0 : String)
    (h1 : Auth.findValidState now st.states s = some os)
    (h2 : env.token_resp = some tr)
    (h3 : tr.status_code = 200)
    (h4 : tr.access_token = some tok)
    (h5 : env.user_resp = some ur)
    (h6 : ur.status_code = 200)
    (h7 : st.accounts.find? (fun b => b.twitter_id == ur.twitter_id) = some a)
    (h8 : tr.expires_in = some ei)
    (h9 : tr.refresh_token = none)
    (h10 : a.refresh_token = some rt0) :
    (Auth.twitter_callback now newId s st env).1 =
      Except.ok (Auth.reauthUpdate now a tok tr ei ur os) ∧
    (Auth.reauthUpdate now a tok tr ei ur os).refresh_token = none ∧
    (TwitterService.refresh_token now a (some tr)).saved.refresh_token = some rt0 := by
  refine ⟨?_, ?_, ?_⟩
  · simp [Auth.twitter_callback, Auth.callback_inner, h1, h2, h3, h4, h5, h6, h7,
      h8, h9]
  · simp only [Auth.reauthUpdate]
    split <;> simp [h9]
  · simp [TwitterService.refresh_token, h3, h4, h8, h9, h10]

/-- Witness for C10: re-authorizing `accSample` through a callback whose
token response omits `refresh_token` stores `none`, while a refresh grant
on the same response would keep `refA`. -/
theorem callback_reauth_overwrites_refresh_token_witness :
    (Auth.twitter_callback 100 "n1" "s1" ⟨[osSample], [accSample]⟩ envCbOk).1 =
      Except.ok (Auth.reauthUpdate 100 accSample "newTok" trNoRefresh 7200
        urSample osSample) ∧
    (Auth.reauthUpdate 100 accSample "newTok" trNoRefresh 7200
        urSample osSample).refresh_token = none ∧
    (TwitterService.refresh_token 100 accSample (some trNoRefresh)).saved.refresh_token =
      some "refA" :=
  callback_reauth_overwrites_refresh_token 100 "n1" "s1"
    ⟨[osSample], [accSample]⟩ envCbOk osSample trNoRefresh "newTok" urSample
    accSample 7200 "refA" (by decide) rfl rfl rfl rfl rfl (by decide) rfl rfl rfl

/-- C1 (amended): in a poll cycle, an active account whose token is already
expired and whose refresh attempt gets HTTP 400 ends the cycle with
`sync_status = error` (not `token_expired`) and
`error_message = "Failed to fetch mentions: Failed to refresh token"`; the
mentions HTTP request for it is skipped (no `mentionsReq` event is
emitted for it), and the rest of the cycle runs exactly as it would on the
remaining accounts alone. -/
theorem poll_expired_refresh_failure_sets_error (now : Int) (a : Account)
    (env : FetchEnv) (tr : TokenResponse) (rest : List (Account × FetchEnv))
    (db : List Message)
    (ha : a.is_active = true)
    (hexp : a.token_expires_at ≤ now)
    (hr : env.refresh_resp = some tr)
    (h400 : tr.status_code = 400) :
    SchedulerService.poll_mentions now ((a, env) :: rest) db =
      { accounts := { a with
            sync_status := AccountSyncStatus.error
            error_message :=
              some "Failed to fetch mentions: Failed to refresh token" } ::
          (SchedulerService.poll_mentions now rest db).accounts
        db := (SchedulerService.poll_mentions now rest db).db
        events := [TwitterService.Ev.refreshCall a.id, TwitterService.Ev.fetchCall a.id, TwitterService.Ev.refreshCall a.id] ++
          (SchedulerService.poll_mentions now rest db).events } := by
  have hrf : TwitterService.refresh_token now a env.refresh_resp =
      ⟨false, a, a⟩ := by
    rw [hr]
    simp [TwitterService.refresh_token, h400]
  have hpre : SchedulerService.poll_pre now a env = a := by
    unfold SchedulerService.poll_pre
    rw [if_pos (by linarith), hrf]
  have hprev : SchedulerService.poll_pre_events now a = [TwitterService.Ev.refreshCall a.id] := by
    unfold SchedulerService.poll_pre_events
    rw [if_pos (by linarith)]
  have hver : TwitterService.verify_token now a.token_expires_at env.verify_api_ok
      = false := by
    unfold TwitterService.verify_token
    rw [if_pos hexp]
  have hfetch : TwitterService.fetch_mentions now a db env =
      { result := Except.error
          ("Failed to fetch mentions: Failed to refresh token", a)
        db := db
        events := [TwitterService.Ev.fetchCall a.id, TwitterService.Ev.refreshCall a.id] } := by
    unfold TwitterService.fetch_mentions
    rw [hver, hrf]
    simp
  have hacct : SchedulerService.poll_account now a env db =
      ({ a with
          sync_status := AccountSyncStatus.error
          error_message :=
            some "Failed to fetch mentions: Failed to refresh token" },
       db, false,
       [TwitterService.Ev.refreshCall a.id, TwitterService.Ev.fetchCall a.id, TwitterService.Ev.refreshCall a.id]) := by
    have hct : containsSub
        "Failed to fetch mentions: Failed to refresh token"
        "Too Many Requests" = false := by decide
    have hst : strTake "Failed to fetch mentions: Failed to refresh token" 500 =
        "Failed to fetch mentions: Failed to refresh token" := by decide
    unfold SchedulerService.poll_account
    simp only [hpre, hprev, hfetch]
    simp [hct, hst]
  simp [SchedulerService.poll_mentions, ha, hacct]

/-- Witness for C1 (amended): the single-account cycle over `accExpired`
against a 400-answering token endpoint. -/
theorem poll_expired_refresh_failure_sets_error_witness :
    SchedulerService.poll_mentions 1000 [(accExpired, envRefresh400)] [] =
      { accounts := [{ accExpired with
            sync_status := AccountSyncStatus.error
            error_message :=
              some "Failed to fetch mentions: Failed to refresh token" }]
        db := []
        events := [TwitterService.Ev.refreshCall "a2", TwitterService.Ev.fetchCall "a2", TwitterService.Ev.refreshCall "a2"] } := by
  have h := poll_expired_refresh_failure_sets_error 1000 accExpired envRefresh400
    { status_code := 400, access_token := none, refresh_token := none,
      expires_in := none } [] [] rfl (by decide) rfl rfl
  simpa [accExpired, accSample, SchedulerService.poll_mentions] using h

/-- Counterexample for C1 as stated: on the concrete expired account with
a 400-answering refresh endpoint, the poll cycle leaves `sync_status =
error`, not `token_expired`. -/
theorem poll_expired_refresh_failure_not_token_expired :
    (SchedulerService.poll_mentions 1000 [(accExpired, envRefresh400)]
        []).accounts.map Account.sync_status ≠
      [AccountSyncStatus.token_expired] ∧
    (SchedulerService.poll_mentions 1000 [(accExpired, envRefresh400)]
        []).accounts.map Account.sync_status = [AccountSyncStatus.error] := by
  constructor <;> decide

/-- The in-memory account object of a refresh call keeps its `id`. -/
theorem refresh_mem_id (now : Int) (a : Account) (resp : Option TokenResponse) :
    (TwitterService.refresh_token now a resp).mem.id = a.id := by
  match resp with
  | none => rfl
  | some tr =>
    by_cases h : tr.status_code = 200
    · match hat : tr.access_token with
      | none => simp [TwitterService.refresh_token, h, hat]
      | some tok =>
        match hei : tr.expires_in with
        | none => simp [TwitterService.refresh_token, h, hat, hei]
        | some ei => simp [TwitterService.refresh_token, h, hat, hei]
    · simp [TwitterService.refresh_token, h]

/-- The pre-fetch refresh step of the poll loop keeps the account `id`. -/
theorem poll_pre_id (now : Int) (a : Account) (env : FetchEnv) :
    (SchedulerService.poll_pre now a env).id = a.id := by
  unfold SchedulerService.poll_pre
  split
  · exact refresh_mem_id now a env.refresh_resp
  · rfl

/-- `fetch_core` appends exactly one `mentionsReq` event. -/
theorem fetch_core_events (acct : Account) (db : List Message) (env : FetchEnv)
    (evs : List TwitterService.Ev) :
    (TwitterService.fetch_core acct db env evs).events =
      evs ++ [TwitterService.Ev.mentionsReq acct.id] := by
  unfold TwitterService.fetch_core
  match h : env.mentions_resp with
  | Except.error s => simp
  | Except.ok resp => by_cases h2 : resp.status_code = 200 <;> simp [h2]

/-- Every event emitted by a `fetch_mentions` call concerns the account it
was called on. -/
theorem fetch_events_accId (now : Int) (acct : Account) (db : List Message)
    (env : FetchEnv) :
    ∀ ev ∈ (TwitterService.fetch_mentions now acct db env).events,
      TwitterService.Ev.accId ev = acct.id := by
  unfold TwitterService.fetch_mentions
  by_cases hv : TwitterService.verify_token now acct.token_expires_at
      env.verify_api_ok = true
  · rw [if_pos hv, fetch_core_events]
    intro ev hev
    rcases List.mem_append.1 hev with h | h <;> simp at h <;> subst h <;> rfl
  · rw [if_neg hv]
    by_cases hs : (TwitterService.refresh_token now acct env.refresh_resp).success
        = true
    · simp only [hs, if_pos, fetch_core_events]
      intro ev hev
      rcases List.mem_append.1 hev with h | h
      · simp at h
        rcases h with h | h <;> subst h <;> rfl
      · simp at h
        subst h
        show (TwitterService.refresh_token now acct env.refresh_resp).mem.id = acct.id
        exact refresh_mem_id now acct env.refresh_resp
    · simp only [hs]
      intro ev hev
      simp at hev
      rcases hev with h | h <;> subst h <;> rfl

/-- `strTake` truncates to at most `n` characters. -/
theorem strTake_length_le (s : String) (n : Nat) : (strTake s n).length ≤ n := by
  show (s.data.take n).length ≤ n
  simp [List.length_take]

/-- C2: when the fetch for an active account A fails with a message
containing "Too Many Requests", the cycle persists A with
`sync_status = rate_limited` and the error message truncated to at most
500 characters, the accounts after A pass through untouched, and every
event of the whole cycle concerns A — no later account receives a fetch
attempt. -/
theorem poll_rate_limit_aborts_cycle (now : Int) (a : Account) (env : FetchEnv)
    (rest : List (Account × FetchEnv)) (db : List Message) (e : String)
    (m : Account)
    (ha : a.is_active = true)
    (hferr : (TwitterService.fetch_mentions now (SchedulerService.poll_pre now a env)
        db env).result = Except.error (e, m))
    (hrl : containsSub e "Too Many Requests" = true) :
    SchedulerService.poll_mentions now ((a, env) :: rest) db =
      { accounts := { m with
            sync_status := AccountSyncStatus.rate_limited
            error_message := some (strTake e 500) } :: rest.map Prod.fst
        db := (TwitterService.fetch_mentions now (SchedulerService.poll_pre now a env)
            db env).db
        events := SchedulerService.poll_pre_events now a ++
          (TwitterService.fetch_mentions now (SchedulerService.poll_pre now a env)
            db env).events } ∧
    (strTake e 500).length ≤ 500 ∧
    ∀ ev ∈ (SchedulerService.poll_mentions now ((a, env) :: rest) db).events,
      TwitterService.Ev.accId ev = a.id := by
  have hacct : SchedulerService.poll_account now a env db =
      ({ m with
          sync_status := AccountSyncStatus.rate_limited
          error_message := some (strTake e 500) },
       (TwitterService.fetch_mentions now (SchedulerService.poll_pre now a env)
          db env).db, true,
       SchedulerService.poll_pre_events now a ++
         (TwitterService.fetch_mentions now (SchedulerService.poll_pre now a env)
           db env).events) := by
    unfold SchedulerService.poll_account
    simp only [hferr, hrl]
    simp
  have hpoll : SchedulerService.poll_mentions now ((a, env) :: rest) db =
      { accounts := { m with
            sync_status := AccountSyncStatus.rate_limited
            error_message := some (strTake e 500) } :: rest.map Prod.fst
        db := (TwitterService.fetch_mentions now (SchedulerService.poll_pre now a env)
            db env).db
        events := SchedulerService.poll_pre_events now a ++
          (TwitterService.fetch_mentions now (SchedulerService.poll_pre now a env)
            db env).events } := by
    simp [SchedulerService.poll_mentions, ha, hacct]
  refine ⟨hpoll, strTake_length_le e 500, ?_⟩
  rw [hpoll]
  intro ev hev
  rcases List.mem_append.1 hev with h | h
  · unfold SchedulerService.poll_pre_events at h
    split at h
    · simp at h
      subst h
      rfl
    · simp at h
  · have := fetch_events_accId now (SchedulerService.poll_pre now a env) db env ev h
    rw [this, poll_pre_id]

/-- Witness for C2: a two-account cycle where the first account's mentions
request answers HTTP 429 — the second (expired) account is passed through
untouched, with no event of its own. -/
theorem poll_rate_limit_aborts_cycle_witness :
    SchedulerService.poll_mentions 1000
        [(accSample, envRate429), (accExpired, envRefresh400)] [] =
      { accounts := { accSample with
            sync_status := AccountSyncStatus.rate_limited
            error_message := some (strTake
              "Failed to fetch mentions: Failed to fetch mentions, title, Too Many Requests, status, 429"
              500) } :: [(accExpired, envRefresh400)].map Prod.fst
        db := (TwitterService.fetch_mentions 1000
            (SchedulerService.poll_pre 1000 accSample envRate429) [] envRate429).db
        events := SchedulerService.poll_pre_events 1000 accSample ++
          (TwitterService.fetch_mentions 1000
            (SchedulerService.poll_pre 1000 accSample envRate429) [] envRate429).events } ∧
    (strTake
      "Failed to fetch mentions: Failed to fetch mentions, title, Too Many Requests, status, 429"
      500).length ≤ 500 ∧
    ∀ ev ∈ (SchedulerService.poll_mentions 1000
        [(accSample, envRate429), (accExpired, envRefresh400)] []).events,
      TwitterService.Ev.accId ev = accSample.id :=
  poll_rate_limit_aborts_cycle 1000 accSample envRate429
    [(accExpired, envRefresh400)] []
    "Failed to fetch mentions: Failed to fetch mentions, title, Too Many Requests, status, 429"
    accSample rfl rfl (by decide)

/-- The account row carried by a `fetch_core` outcome keeps its `id`. -/
theorem fetch_core_result_id (acct : Account) (db : List Message) (env : FetchEnv)
    (evs : List TwitterService.Ev) :
    (match (TwitterService.fetch_core acct db env evs).result with
     | Except.ok (_, saved) => saved.id
     | Except.error (_, m) => m.id) = acct.id := by
  unfold TwitterService.fetch_core
  match h : env.mentions_resp with
  | Except.error s => simp
  | Except.ok resp => by_cases h2 : resp.status_code = 200 <;> simp [h2]

/-- The account row carried by a `fetch_mentions` outcome keeps its `id`. -/
theorem fetch_result_id (now : Int) (acct : Account) (db : List Message)
    (env : FetchEnv) :
    (match (TwitterService.fetch_mentions now acct db env).result with
     | Except.ok (_, saved) => saved.id
     | Except.error (_, m) => m.id) = acct.id := by
  unfold TwitterService.fetch_mentions
  by_cases hv : TwitterService.verify_token now acct.token_expires_at
      env.verify_api_ok = true
  · rw [if_pos hv]
    exact fetch_core_result_id acct db env _
  · rw [if_neg hv]
    by_cases hs : (TwitterService.refresh_token now acct env.refresh_resp).success
        = true
    · simp only [hs, if_pos]
      exact (fetch_core_result_id _ db env _).trans
        (refresh_mem_id now acct env.refresh_resp)
    · simp only [hs]
      exact refresh_mem_id now acct env.refresh_resp

/-- The persisted row of one poll-loop iteration keeps the account `id`. -/
theorem poll_account_id (now : Int) (a : Account) (env : FetchEnv)
    (db : List Message) :
    (SchedulerService.poll_account now a env db).1.id = a.id := by
  have hid := fetch_result_id now (SchedulerService.poll_pre now a env) db env
  rw [poll_pre_id] at hid
  unfold SchedulerService.poll_account
  cases hfr : (TwitterService.fetch_mentions now (SchedulerService.poll_pre now a env)
      db env).result with
  | ok v =>
    rw [hfr] at hid
    obtain ⟨new, saved⟩ := v
    simp only [hfr]
    exact hid
  | error v =>
    rw [hfr] at hid
    obtain ⟨e, m⟩ := v
    by_cases hc : containsSub e "Too Many Requests" = true <;>
      simp only [hfr, hc] <;> simp <;> exact hid

/-- The events of one poll-loop iteration are the pre-refresh events
followed by the fetch events. -/
theorem poll_account_events (now : Int) (a : Account) (env : FetchEnv)
    (db : List Message) :
    (SchedulerService.poll_account now a env db).2.2.2 =
      SchedulerService.poll_pre_events now a ++
      (TwitterService.fetch_mentions now (SchedulerService.poll_pre now a env)
        db env).events := by
  unfold SchedulerService.poll_account
  cases hfr : (TwitterService.fetch_mentions now (SchedulerService.poll_pre now a env)
      db env).result with
  | ok v =>
    obtain ⟨new, saved⟩ := v
    simp [hfr]
  | error v =>
    obtain ⟨e, m⟩ := v
    by_cases hc : containsSub e "Too Many Requests" = true <;> simp [hfr, hc]

/-- Every event of one poll-loop iteration concerns the iterated account. -/
theorem poll_account_events_accId (now : Int) (a : Account) (env : FetchEnv)
    (db : List Message) :
    ∀ ev ∈ (SchedulerService.poll_account now a env db).2.2.2,
      TwitterService.Ev.accId ev = a.id := by
  rw [poll_account_events]
  intro ev hev
  rcases List.mem_append.1 hev with h | h
  · unfold SchedulerService.poll_pre_events at h
    split at h
    · simp at h
      subst h
      rfl
    · simp at h
  · have := fetch_events_accId now (SchedulerService.poll_pre now a env) db env ev h
    rw [this, poll_pre_id]


/-- Unfolding of `poll_mentions` at an active head that hits the rate
limit (`break`). -/
theorem poll_cons_active_break (now : Int) (c : Account) (cenv : FetchEnv)
    (tl : List (Account × FetchEnv)) (db : List Message)
    (hac : c.is_active = true)
    (hbrk : (SchedulerService.poll_account now c cenv db).2.2.1 = true) :
    SchedulerService.poll_mentions now ((c, cenv) :: tl) db =
      { accounts := (SchedulerService.poll_account now c cenv db).1 ::
          tl.map Prod.fst
        db := (SchedulerService.poll_account now c cenv db).2.1
        events := (SchedulerService.poll_account now c cenv db).2.2.2 } := by
  simp [SchedulerService.poll_mentions, hac, hbrk]

/-- Unfolding of `poll_mentions` at an active head that does not break. -/
theorem poll_cons_active_cont (now : Int) (c : Account) (cenv : FetchEnv)
    (tl : List (Account × FetchEnv)) (db : List Message)
    (hac : c.is_active = true)
    (hbrk : (SchedulerService.poll_account now c cenv db).2.2.1 = false) :
    SchedulerService.poll_mentions now ((c, cenv) :: tl) db =
      { accounts := (SchedulerService.poll_account now c cenv db).1 ::
          (SchedulerService.poll_mentions now tl
            (SchedulerService.poll_account now c cenv db).2.1).accounts
        db := (SchedulerService.poll_mentions now tl
            (SchedulerService.poll_account now c cenv db).2.1).db
        events := (SchedulerService.poll_account now c cenv db).2.2.2 ++
          (SchedulerService.poll_mentions now tl
            (SchedulerService.poll_account now c cenv db).2.1).events } := by
  simp [SchedulerService.poll_mentions, hac, hbrk]

/-- Unfolding of `poll_mentions` at an inactive head. -/
theorem poll_cons_inactive (now : Int) (c : Account) (cenv : FetchEnv)
    (tl : List (Account × FetchEnv)) (db : List Message)
    (hac : c.is_active = false) :
    SchedulerService.poll_mentions now ((c, cenv) :: tl) db =
      { accounts := c :: (SchedulerService.poll_mentions now tl db).accounts
        db := (SchedulerService.poll_mentions now tl db).db
        events := (SchedulerService.poll_mentions now tl db).events } := by
  simp [SchedulerService.poll_mentions, hac]

/-- Every account row a poll cycle returns originates in an input account
of the same `id`, and an inactive input account is returned unchanged. -/
theorem poll_accounts_origin (now : Int) :
    ∀ (pairs : List (Account × FetchEnv)) (db : List Message),
      ∀ b ∈ (SchedulerService.poll_mentions now pairs db).accounts,
        ∃ p ∈ pairs, b.id = p.1.id ∧ (p.1.is_active = false → b = p.1) := by
  intro pairs
  induction pairs with
  | nil =>
    intro db b hb
    simp [SchedulerService.poll_mentions] at hb
  | cons hd tl ih =>
    intro db b hb
    obtain ⟨c, cenv⟩ := hd
    by_cases hac : c.is_active = true
    · by_cases hbrk : (SchedulerService.poll_account now c cenv db).2.2.1 = true
      · rw [poll_cons_active_break now c cenv tl db hac hbrk] at hb
        rcases List.mem_cons.1 hb with h | h
        · exact ⟨(c, cenv), List.mem_cons_self _ _,
            by rw [h]; exact poll_account_id now c cenv db,
            fun hfalse => absurd (hfalse : c.is_active = false) (by simp [hac])⟩
        · obtain ⟨q, hq, hqe⟩ := List.mem_map.1 h
          exact ⟨q, List.mem_cons_of_mem _ hq, by rw [hqe], fun _ => hqe.symm⟩
      · rw [poll_cons_active_cont now c cenv tl db hac
            (Bool.not_eq_true _ ▸ hbrk : _ = false)] at hb
        rcases List.mem_cons.1 hb with h | h
        · exact ⟨(c, cenv), List.mem_cons_self _ _,
            by rw [h]; exact poll_account_id now c cenv db,
            fun hfalse => absurd (hfalse : c.is_active = false) (by simp [hac])⟩
        · obtain ⟨q, hq, hrest⟩ := ih _ b h
          exact ⟨q, List.mem_cons_of_mem _ hq, hrest⟩
    · rw [poll_cons_inactive now c cenv tl db (Bool.not_eq_true _ ▸ hac)] at hb
      rcases List.mem_cons.1 hb with h | h
      · exact ⟨(c, cenv), List.mem_cons_self _ _, by rw [h], fun _ => h⟩
      · obtain ⟨q, hq, hrest⟩ := ih _ b h
        exact ⟨q, List.mem_cons_of_mem _ hq, hrest⟩

/-- Every event of a poll cycle concerns an active input account. -/
theorem poll_events_origin (now : Int) :
    ∀ (pairs : List (Account × FetchEnv)) (db : List Message),
      ∀ ev ∈ (SchedulerService.poll_mentions now pairs db).events,
        ∃ p ∈ pairs, p.1.is_active = true ∧
          TwitterService.Ev.accId ev = p.1.id := by
  intro pairs
  induction pairs with
  | nil =>
    intro db ev hev
    simp [SchedulerService.poll_mentions] at hev
  | cons hd tl ih =>
    intro db ev hev
    obtain ⟨c, cenv⟩ := hd
    by_cases hac : c.is_active = true
    · by_cases hbrk : (SchedulerService.poll_account now c cenv db).2.2.1 = true
      · rw [poll_cons_active_break now c cenv tl db hac hbrk] at hev
        exact ⟨(c, cenv), List.mem_cons_self _ _, hac,
          poll_account_events_accId now c cenv db ev hev⟩
      · rw [poll_cons_active_cont now c cenv tl db hac
            (Bool.not_eq_true _ ▸ hbrk : _ = false)] at hev
        rcases List.mem_append.1 hev with h | h
        · exact ⟨(c, cenv), List.mem_cons_self _ _, hac,
            poll_account_events_accId now c cenv db ev h⟩
        · obtain ⟨q, hq, hrest⟩ := ih _ ev h
          exact ⟨q, List.mem_cons_of_mem _ hq, hrest⟩
    · rw [poll_cons_inactive now c cenv tl db (Bool.not_eq_true _ ▸ hac)] at hev
      obtain ⟨q, hq, hrest⟩ := ih _ ev hev
      exact ⟨q, List.mem_cons_of_mem _ hq, hrest⟩

/-- An inactive input account is present (unchanged) in the cycle's
output. -/
theorem poll_keeps_inactive_mem (now : Int) :
    ∀ (pairs : List (Account × FetchEnv)) (db : List Message) (a : Account)
      (env : FetchEnv), (a, env) ∈ pairs → a.is_active = false →
      a ∈ (SchedulerService.poll_mentions now pairs db).accounts := by
  intro pairs
  induction pairs with
  | nil =>
    intro db a env hmem
    simp at hmem
  | cons hd tl ih =>
    intro db a env hmem hin
    obtain ⟨c, cenv⟩ := hd
    rcases List.mem_cons.1 hmem with h | h
    · injection h with h1 h2
      subst h1
      rw [poll_cons_inactive now a cenv tl db hin]
      exact List.mem_cons_self _ _
    · by_cases hac : c.is_active = true
      · by_cases hbrk : (SchedulerService.poll_account now c cenv db).2.2.1 = true
        · rw [poll_cons_active_break now c cenv tl db hac hbrk]
          exact List.mem_cons_of_mem _ (List.mem_map.2 ⟨(a, env), h, rfl⟩)
        · rw [poll_cons_active_cont now c cenv tl db hac
              (Bool.not_eq_true _ ▸ hbrk : _ = false)]
          exact List.mem_cons_of_mem _ (ih _ a env h hin)
      · rw [poll_cons_inactive now c cenv tl db (Bool.not_eq_true _ ▸ hac)]
        exact List.mem_cons_of_mem _ (ih _ a env h hin)

/-- C7: for an account A with `is_active = false` in a cycle whose input
accounts have pairwise-distinct ids, A appears unchanged in the output,
the only output row carrying A's id is A itself, and no emitted event —
no fetch, refresh, or mentions request — concerns A's id. -/
theorem poll_never_touches_inactive (now : Int)
    (pairs : List (Account × FetchEnv)) (db : List Message) (a : Account)
    (env : FetchEnv)
    (hmem : (a, env) ∈ pairs) (hin : a.is_active = false)
    (hids : (pairs.map (fun p => p.1.id)).Nodup) :
    a ∈ (SchedulerService.poll_mentions now pairs db).accounts ∧
    (∀ b ∈ (SchedulerService.poll_mentions now pairs db).accounts,
      b.id = a.id → b = a) ∧
    (∀ ev ∈ (SchedulerService.poll_mentions now pairs db).events,
      TwitterService.Ev.accId ev ≠ a.id) := by
  refine ⟨poll_keeps_inactive_mem now pairs db a env hmem hin, ?_, ?_⟩
  · intro b hb hbid
    obtain ⟨p, hp, hpid, hpin⟩ := poll_accounts_origin now pairs db b hb
    have hpe : p = (a, env) :=
      List.inj_on_of_nodup_map hids hp hmem (by rw [← hpid, hbid])
    have hp1 : p.1 = a := by rw [hpe]
    rw [← hp1]
    exact hpin (hp1 ▸ hin)
  · intro ev hev hevid
    obtain ⟨p, hp, hpact, hpid⟩ := poll_events_origin now pairs db ev hev
    have hpe : p = (a, env) :=
      List.inj_on_of_nodup_map hids hp hmem (by rw [← hpid, hevid])
    rw [hpe] at hpact
    exact absurd hpact (by simp [hin])

/-- Witness for C7: a cycle over an active and an inactive account leaves
the inactive one untouched and emits no event for it. -/
theorem poll_never_touches_inactive_witness :
    accInactive ∈ (SchedulerService.poll_mentions 1000
        [(accSample, envOnePage), (accInactive, envRefresh400)] []).accounts ∧
    (∀ b ∈ (SchedulerService.poll_mentions 1000
        [(accSample, envOnePage), (accInactive, envRefresh400)] []).accounts,
      b.id = accInactive.id → b = accInactive) ∧
    (∀ ev ∈ (SchedulerService.poll_mentions 1000
        [(accSample, envOnePage), (accInactive, envRefresh400)] []).events,
      TwitterService.Ev.accId ev ≠ accInactive.id) :=
  poll_never_touches_inactive 1000
    [(accSample, envOnePage), (accInactive, envRefresh400)] [] accInactive
    envRefresh400 (List.mem_cons_of_mem _ (List.mem_cons_self _ _)) rfl
    (by decide)

/-- A truncation of a non-empty string to a positive length is
non-empty. -/
theorem strTake_ne_empty (s : String) (n : Nat) (hn : n ≠ 0) (hs : s ≠ "") :
    strTake s n ≠ "" := by
  intro hc
  have h1 : s.data.take n = ([] : List Char) := congrArg String.data hc
  rcases List.take_eq_nil_iff.1 h1 with h2 | h2
  · exact hn h2
  · exact hs (String.ext h2)

/-- Appending on the right keeps a string non-empty. -/
theorem append_ne_empty_left (s t : String) (hs : s ≠ "") : s ++ t ≠ "" := by
  intro hc
  have h1 : s.data ++ t.data = ([] : List Char) := by
    rw [← String.data_append]
    exact congrArg String.data hc
  exact hs (String.ext (List.append_eq_nil.1 h1).1)

/-- A `fetch_core` failure message is non-empty (it carries the
`Failed to fetch mentions:` wrapper). -/
theorem fetch_core_error_ne (acct : Account) (db : List Message)
    (env : FetchEnv) (evs : List TwitterService.Ev) (e : String) (m : Account)
    (h : (TwitterService.fetch_core acct db env evs).result =
      Except.error (e, m)) : e ≠ "" := by
  unfold TwitterService.fetch_core at h
  match hm : env.mentions_resp with
  | Except.error s =>
    simp only [hm] at h
    simp only [Except.error.injEq, Prod.mk.injEq] at h
    rw [← h.1]
    exact append_ne_empty_left _ _ (by decide)
  | Except.ok resp =>
    by_cases h2 : resp.status_code = 200
    · simp [hm, h2] at h
    · simp only [hm] at h
      rw [if_pos h2] at h
      simp only [Except.error.injEq, Prod.mk.injEq] at h
      rw [← h.1]
      exact append_ne_empty_left _ _ (by decide)

/-- A `fetch_mentions` failure message, even truncated to 500 characters,
is non-empty. -/
theorem fetch_error_msg_ne (now : Int) (acct : Account) (db : List Message)
    (env : FetchEnv) (e : String) (m : Account)
    (h : (TwitterService.fetch_mentions now acct db env).result =
      Except.error (e, m)) : strTake e 500 ≠ "" := by
  have hmain : e ≠ "" := by
    unfold TwitterService.fetch_mentions at h
    by_cases hv : TwitterService.verify_token now acct.token_expires_at
        env.verify_api_ok = true
    · rw [if_pos hv] at h
      exact fetch_core_error_ne _ _ _ _ _ _ h
    · rw [if_neg hv] at h
      by_cases hs : (TwitterService.refresh_token now acct env.refresh_resp).success
          = true
      · simp only [hs, if_pos] at h
        exact fetch_core_error_ne _ _ _ _ _ _ h
      · simp only [hs] at h
        simp only [Bool.false_eq_true, if_false, Except.error.injEq,
          Prod.mk.injEq] at h
        rw [← h.1]
        decide
  exact strTake_ne_empty e 500 (by decide) hmain

/-- The row persisted by one poll-loop iteration satisfies the
error-message invariant, whatever the input was. -/
theorem poll_account_invOK (now : Int) (a : Account) (env : FetchEnv)
    (db : List Message) :
    invOK (SchedulerService.poll_account now a env db).1 := by
  unfold SchedulerService.poll_account
  cases hfr : (TwitterService.fetch_mentions now (SchedulerService.poll_pre now a env)
      db env).result with
  | ok v =>
    obtain ⟨new, saved⟩ := v
    simp only [hfr]
    intro hcon
    rcases hcon with h' | h' <;> simp at h'
  | error v =>
    obtain ⟨e, m⟩ := v
    have hne := fetch_error_msg_ne now (SchedulerService.poll_pre now a env)
      db env e m hfr
    by_cases hc : containsSub e "Too Many Requests" = true
    · simp only [hfr, hc, if_pos]
      intro hcon
      exact ⟨strTake e 500, rfl, hne⟩
    · simp only [hfr, hc]
      simp only [Bool.false_eq_true, if_false]
      intro hcon
      exact ⟨strTake e 500, rfl, hne⟩

/-- The poll cycle preserves the error-message invariant. -/
theorem poll_invOK_aux (now : Int) :
    ∀ (pairs : List (Account × FetchEnv)) (db : List Message),
      (∀ p ∈ pairs, invOK p.1) →
      ∀ b ∈ (SchedulerService.poll_mentions now pairs db).accounts, invOK b := by
  intro pairs
  induction pairs with
  | nil =>
    intro db hall b hb
    simp [SchedulerService.poll_mentions] at hb
  | cons hd tl ih =>
    intro db hall b hb
    obtain ⟨c, cenv⟩ := hd
    by_cases hac : c.is_active = true
    · by_cases hbrk : (SchedulerService.poll_account now c cenv db).2.2.1 = true
      · rw [poll_cons_active_break now c cenv tl db hac hbrk] at hb
        rcases List.mem_cons.1 hb with h | h
        · rw [h]
          exact poll_account_invOK now c cenv db
        · obtain ⟨q, hq, hqe⟩ := List.mem_map.1 h
          rw [← hqe]
          exact hall q (List.mem_cons_of_mem _ hq)
      · rw [poll_cons_active_cont now c cenv tl db hac
            (Bool.not_eq_true _ ▸ hbrk : _ = false)] at hb
        rcases List.mem_cons.1 hb with h | h
        · rw [h]
          exact poll_account_invOK now c cenv db
        · exact ih _ (fun q hq => hall q (List.mem_cons_of_mem _ hq)) b h
    · rw [poll_cons_inactive now c cenv tl db (Bool.not_eq_true _ ▸ hac)] at hb
      rcases List.mem_cons.1 hb with h | h
      · rw [h]
        exact hall (c, cenv) (List.mem_cons_self _ _)
      · exact ih _ (fun q hq => hall q (List.mem_cons_of_mem _ hq)) b h

/-- One iteration of the refresh sweep preserves the error-message
invariant. -/
theorem sweep_account_invOK (now : Int) (a : Account)
    (resp : Option TokenResponse) (h : invOK a) :
    invOK (SchedulerService.sweep_account now a resp) := by
  by_cases hexp : a.token_expires_at ≤ now + 3600
  · by_cases hs : (TwitterService.refresh_token now a resp).success = true
    · simp only [SchedulerService.sweep_account, if_pos hexp, hs, if_true]
      intro hcon
      rcases hcon with h' | h' <;> simp at h'
    · simp only [SchedulerService.sweep_account, if_pos hexp, hs]
      simp only [Bool.false_eq_true, if_false]
      intro hcon
      rcases hcon with h' | h' <;> simp at h'
  · simp only [SchedulerService.sweep_account, if_neg hexp]
    exact h

/-- The refresh sweep preserves the error-message invariant. -/
theorem sweep_invOK_aux (now : Int) :
    ∀ (spairs : List (Account × Option TokenResponse)),
      (∀ p ∈ spairs, invOK p.1) →
      ∀ b ∈ SchedulerService.refresh_tokens now spairs, invOK b := by
  intro spairs
  induction spairs with
  | nil =>
    intro hall b hb
    simp [SchedulerService.refresh_tokens] at hb
  | cons hd tl ih =>
    intro hall b hb
    obtain ⟨c, resp⟩ := hd
    simp only [SchedulerService.refresh_tokens] at hb
    rcases List.mem_cons.1 hb with h | h
    · rw [h]
      by_cases hac : c.is_active = true
      · rw [if_pos hac]
        exact sweep_account_invOK now c resp (hall (c, resp) (List.mem_cons_self _ _))
      · rw [if_neg hac]
        exact hall (c, resp) (List.mem_cons_self _ _)
    · exact ih (fun q hq => hall q (List.mem_cons_of_mem _ hq)) b h

/-- C8: every operation of the poll cycle and of the token-refresh sweep
preserves the invariant that an account with `sync_status = rate_limited`
or `error` carries a non-empty `error_message`. -/
theorem cycle_and_sweep_preserve_error_invariant (now : Int)
    (pairs : List (Account × FetchEnv)) (db : List Message)
    (spairs : List (Account × Option TokenResponse))
    (h1 : ∀ p ∈ pairs, invOK p.1) (h2 : ∀ p ∈ spairs, invOK p.1) :
    (∀ b ∈ (SchedulerService.poll_mentions now pairs db).accounts, invOK b) ∧
    (∀ b ∈ SchedulerService.refresh_tokens now spairs, invOK b) :=
  ⟨poll_invOK_aux now pairs db h1, sweep_invOK_aux now spairs h2⟩

/-- Witness for C8: a poll cycle over `accSample` and a sweep over
`accExpired` (against a network-erroring token endpoint) keep the
invariant. -/
theorem cycle_and_sweep_preserve_error_invariant_witness :
    (∀ b ∈ (SchedulerService.poll_mentions 1000 [(accSample, envOnePage)]
        []).accounts, invOK b) ∧
    (∀ b ∈ SchedulerService.refresh_tokens 1000 [(accExpired, none)], invOK b) :=
  cycle_and_sweep_preserve_error_invariant 1000 [(accSample, envOnePage)] []
    [(accExpired, none)]
    (by
      intro p hp
      simp only [List.mem_singleton] at hp
      subst hp
      intro hcon
      rcases hcon with h | h <;> simp [accSample] at h)
    (by
      intro p hp
      simp only [List.mem_singleton] at hp
      subst hp
      intro hcon
      rcases hcon with h | h <;> simp [accExpired, accSample] at h)

/-- Unfolding of the insert loop at a cons cell. -/
theorem insertMentions_cons (a : Account) (m : Mention) (ms : List Mention)
    (db : List Message) :
    TwitterService.insertMentions a db (m :: ms) =
      if db.any (fun msg => msg.tweet_id == m.id) then
        TwitterService.insertMentions a db ms
      else
        (TwitterService.mkMessage a m ::
           (TwitterService.insertMentions a
             (db ++ [TwitterService.mkMessage a m]) ms).1,
         (TwitterService.insertMentions a
           (db ++ [TwitterService.mkMessage a m]) ms).2) := rfl

/-- When every mention of the page is already stored, the insert loop
inserts nothing and returns the collection unchanged. -/
theorem insertMentions_skip_all (a : Account) :
    ∀ (ms : List Mention) (db : List Message),
      (∀ m ∈ ms, db.any (fun msg => msg.tweet_id == m.id) = true) →
      TwitterService.insertMentions a db ms = ([], db) := by
  intro ms
  induction ms with
  | nil => intro db _; rfl
  | cons m ms ih =>
    intro db h
    rw [insertMentions_cons, if_pos (h m (List.mem_cons_self _ _))]
    exact ih db (fun x hx => h x (List.mem_cons_of_mem _ hx))

/-- The insert loop never removes rows: a predicate already satisfied in
the collection stays satisfied. -/
theorem insertMentions_mono_any (a : Account) (p : Message → Bool) :
    ∀ (ms : List Mention) (db : List Message), db.any p = true →
      (TwitterService.insertMentions a db ms).2.any p = true := by
  intro ms
  induction ms with
  | nil => intro db h; exact h
  | cons m ms ih =>
    intro db h
    rw [insertMentions_cons]
    by_cases hc : db.any (fun msg => msg.tweet_id == m.id) = true
    · rw [if_pos hc]
      exact ih db h
    · rw [if_neg hc]
      exact ih _ (by rw [List.any_append]; simp [h])

/-- After the insert loop, every mention of the page has a stored row with
its external id. -/
theorem insertMentions_present (a : Account) :
    ∀ (ms : List Mention) (db : List Message), ∀ m ∈ ms,
      (TwitterService.insertMentions a db ms).2.any
        (fun msg => msg.tweet_id == m.id) = true := by
  intro ms
  induction ms with
  | nil =>
    intro db m hm
    simp at hm
  | cons m0 ms ih =>
    intro db m hm
    rw [insertMentions_cons]
    by_cases hc : db.any (fun msg => msg.tweet_id == m0.id) = true
    · rw [if_pos hc]
      rcases List.mem_cons.1 hm with h | h
      · subst h
        exact insertMentions_mono_any a _ ms db hc
      · exact ih db m h
    · rw [if_neg hc]
      rcases List.mem_cons.1 hm with h | h
      · subst h
        refine insertMentions_mono_any a _ ms _ ?_
        rw [List.any_append]
        simp [TwitterService.mkMessage]
      · exact ih _ m h

/-- The insert loop preserves uniqueness of external ids. -/
theorem insertMentions_nodup (a : Account) :
    ∀ (ms : List Mention) (db : List Message),
      (db.map Message.tweet_id).Nodup →
      ((TwitterService.insertMentions a db ms).2.map Message.tweet_id).Nodup := by
  intro ms
  induction ms with
  | nil => intro db h; exact h
  | cons m ms ih =>
    intro db h
    rw [insertMentions_cons]
    by_cases hc : db.any (fun msg => msg.tweet_id == m.id) = true
    · rw [if_pos hc]
      exact ih db h
    · rw [if_neg hc]
      refine ih _ ?_
      rw [List.map_append, List.nodup_append]
      refine ⟨h, by simp, ?_⟩
      intro x hx hx2
      simp [TwitterService.mkMessage] at hx2
      subst hx2
      obtain ⟨msg, hmsg, hmeq⟩ := List.mem_map.1 hx
      have hfalse := List.any_eq_false.1 (Bool.not_eq_true _ ▸ hc : _ = false)
        msg hmsg
      exact hfalse (by rw [hmeq]; exact beq_self_eq_true _)

/-- C3: the Mention Fetcher is idempotent over external ids — running it a
second time over the same upstream page inserts zero rows, leaves the
collection and `total_mentions_tracked` unchanged, the counter was bumped
exactly by the number of newly seen ids, the stored external ids stay
pairwise distinct, and each upstream external id has exactly one stored
row. -/
theorem fetch_mentions_idempotent (now : Int) (a : Account) (db : List Message)
    (env : FetchEnv) (resp : MentionsResponse) (new : List Message)
    (a1 : Account)
    (hv : TwitterService.verify_token now a.token_expires_at env.verify_api_ok
      = true)
    (hm : env.mentions_resp = Except.ok resp)
    (hs : resp.status_code = 200)
    (hnd : (db.map Message.tweet_id).Nodup)
    (h1 : (TwitterService.fetch_mentions now a db env).result =
      Except.ok (new, a1)) :
    (TwitterService.fetch_mentions now a1
        (TwitterService.fetch_mentions now a db env).db env).result =
      Except.ok ([], a1) ∧
    (TwitterService.fetch_mentions now a1
        (TwitterService.fetch_mentions now a db env).db env).db =
      (TwitterService.fetch_mentions now a db env).db ∧
    a1.total_mentions_tracked = a.total_mentions_tracked + new.length ∧
    ((TwitterService.fetch_mentions now a db env).db.map Message.tweet_id).Nodup ∧
    ∀ m ∈ resp.data,
      List.count m.id
        ((TwitterService.fetch_mentions now a db env).db.map Message.tweet_id)
        = 1 := by
  have hfe : TwitterService.fetch_mentions now a db env =
      { result := Except.ok ((TwitterService.insertMentions a db resp.data).1,
          { a with total_mentions_tracked := a.total_mentions_tracked +
              (TwitterService.insertMentions a db resp.data).1.length })
        db := (TwitterService.insertMentions a db resp.data).2
        events := [TwitterService.Ev.fetchCall a.id,
          TwitterService.Ev.mentionsReq a.id] } := by
    unfold TwitterService.fetch_mentions TwitterService.fetch_core
    rw [if_pos hv]
    simp only [hm]
    rw [if_neg (by simp [hs])]
    rfl
  rw [hfe] at h1
  simp only [Except.ok.injEq, Prod.mk.injEq] at h1
  obtain ⟨hnew, ha1⟩ := h1
  have hall : ∀ m ∈ resp.data,
      ((TwitterService.insertMentions a db resp.data).2).any
        (fun msg => msg.tweet_id == m.id) = true :=
    fun m hm2 => insertMentions_present a resp.data db m hm2
  have hq : TwitterService.insertMentions a1
      (TwitterService.insertMentions a db resp.data).2 resp.data =
      ([], (TwitterService.insertMentions a db resp.data).2) :=
    insertMentions_skip_all a1 resp.data _ hall
  have hv1 : TwitterService.verify_token now a1.token_expires_at
      env.verify_api_ok = true := by
    rw [← ha1]
    exact hv
  have hfe2 : TwitterService.fetch_mentions now a1
      (TwitterService.insertMentions a db resp.data).2 env =
      { result := Except.ok (([] : List Message),
          { a1 with total_mentions_tracked := a1.total_mentions_tracked + 0 })
        db := (TwitterService.insertMentions a db resp.data).2
        events := [TwitterService.Ev.fetchCall a1.id,
          TwitterService.Ev.mentionsReq a1.id] } := by
    unfold TwitterService.fetch_mentions TwitterService.fetch_core
    rw [if_pos hv1]
    simp only [hm]
    rw [if_neg (by simp [hs])]
    simp [hq]
  refine ⟨?_, ?_, ?_, ?_, ?_⟩
  · rw [hfe]
    show (TwitterService.fetch_mentions now a1
      (TwitterService.insertMentions a db resp.data).2 env).result = _
    rw [hfe2]
    simp
  · rw [hfe]
    show (TwitterService.fetch_mentions now a1
      (TwitterService.insertMentions a db resp.data).2 env).db = _
    rw [hfe2]
  · rw [← ha1, ← hnew]
  · rw [hfe]
    exact insertMentions_nodup a resp.data db hnd
  · intro m hm2
    rw [hfe]
    refine List.count_eq_one_of_mem (insertMentions_nodup a resp.data db hnd) ?_
    obtain ⟨msg, hmsg, hbeq⟩ := List.any_eq_true.1 (hall m hm2)
    exact List.mem_map.2 ⟨msg, hmsg, eq_of_beq hbeq⟩

/-- Witness for C3: fetching the one-mention page twice for `accSample`
starting from an empty collection. -/
theorem fetch_mentions_idempotent_witness :
    (TwitterService.fetch_mentions 1000
        { accSample with total_mentions_tracked :=
            accSample.total_mentions_tracked + 1 }
        (TwitterService.fetch_mentions 1000 accSample [] envOnePage).db
        envOnePage).result =
      Except.ok ([], { accSample with total_mentions_tracked :=
        accSample.total_mentions_tracked + 1 }) ∧
    (TwitterService.fetch_mentions 1000
        { accSample with total_mentions_tracked :=
            accSample.total_mentions_tracked + 1 }
        (TwitterService.fetch_mentions 1000 accSample [] envOnePage).db
        envOnePage).db =
      (TwitterService.fetch_mentions 1000 accSample [] envOnePage).db ∧
    ({ accSample with total_mentions_tracked :=
        accSample.total_mentions_tracked + 1 } : Account).total_mentions_tracked
      = accSample.total_mentions_tracked +
        [TwitterService.mkMessage accSample
          (Mention.mk "987654" "555" "hello")].length ∧
    ((TwitterService.fetch_mentions 1000 accSample [] envOnePage).db.map
      Message.tweet_id).Nodup ∧
    ∀ m ∈ (MentionsResponse.mk 200 [Mention.mk "987654" "555" "hello"] "").data,
      List.count m.id
        ((TwitterService.fetch_mentions 1000 accSample [] envOnePage).db.map
          Message.tweet_id) = 1 :=
  fetch_mentions_idempotent 1000 accSample [] envOnePage
    (MentionsResponse.mk 200 [Mention.mk "987654" "555" "hello"] "")
    [TwitterService.mkMessage accSample (Mention.mk "987654" "555" "hello")]
    { accSample with total_mentions_tracked :=
        accSample.total_mentions_tracked + 1 }
    rfl rfl rfl (by simp) rfl

/-- When the callback body returns successfully, the matched handshake
record has been deleted from the collection. -/
theorem callback_inner_ok (now : Int) (newId s : String) (st : Auth.DBState)
    (env : Auth.CallbackEnv) (acc : Account) (st2 : Auth.DBState)
    (h : Auth.callback_inner now newId s st env = Except.ok (acc, st2)) :
    ∃ os, Auth.findValidState now st.states s = some os ∧
      st2.states = st.states.erase os := by
  unfold Auth.callback_inner at h
  split at h
  next => simp at h
  next os hos =>
    split at h
    next => simp at h
    next tr htr =>
      split at h
      next h200 => simp at h
      next h200 =>
        split at h
        next hat => simp at h
        next tok hat =>
          split at h
          next hur => simp at h
          next ur hur =>
            split at h
            next hu200 => simp at h
            next hu200 =>
              split at h
              next hfind =>
                split at h
                next hei => simp at h
                next ei hei =>
                  split at h
                  next hrt => simp at h
                  next rt hrt =>
                    simp only [Except.ok.injEq, Prod.mk.injEq] at h
                    exact ⟨os, hos, by rw [← h.2]⟩
              next a hfind =>
                split at h
                next hei => simp at h
                next ei hei =>
                  simp only [Except.ok.injEq, Prod.mk.injEq] at h
                  exact ⟨os, hos, by rw [← h.2]⟩

/-- C6: a callback whose state has no handshake within the 10-minute
window is rejected with an error whose detail says
`Invalid or expired state`, leaving both collections untouched; a callback
that succeeds has deleted the matched handshake (single use); and a
failing token exchange (non-2xx) leaves the collections — the handshake
included — in place. -/
theorem callback_state_window (now : Int) (newId s : String) (st : Auth.DBState)
    (env : Auth.CallbackEnv) :
    (Auth.findValidState now st.states s = none →
      (∃ d, (Auth.twitter_callback now newId s st env).1 =
          Except.error (400, d) ∧
        containsSub d "Invalid or expired state" = true) ∧
      (Auth.twitter_callback now newId s st env).2 = st) ∧
    (∀ acc, (Auth.twitter_callback now newId s st env).1 = Except.ok acc →
      ∃ os, Auth.findValidState now st.states s = some os ∧
        (Auth.twitter_callback now newId s st env).2.states =
          st.states.erase os) ∧
    (∀ tr, env.token_resp = some tr → tr.status_code ≠ 200 →
      (Auth.twitter_callback now newId s st env).2 = st) := by
  refine ⟨?_, ?_, ?_⟩
  · intro hnone
    have hcb : Auth.twitter_callback now newId s st env =
        (Except.error (400, "Failed to authenticate with Twitter: " ++
          "400: Invalid or expired state"), st) := by
      unfold Auth.twitter_callback Auth.callback_inner
      rw [hnone]
    exact ⟨⟨_, by rw [hcb], by decide⟩, by rw [hcb]⟩
  · intro acc hacc
    cases hci : Auth.callback_inner now newId s st env with
    | error e =>
      unfold Auth.twitter_callback at hacc
      rw [hci] at hacc
      simp at hacc
    | ok v =>
      obtain ⟨acc2, st2⟩ := v
      obtain ⟨os, hos, hst⟩ := callback_inner_ok now newId s st env acc2 st2 hci
      refine ⟨os, hos, ?_⟩
      unfold Auth.twitter_callback
      rw [hci]
      exact hst
  · intro tr htr h200
    cases hfs : Auth.findValidState now st.states s with
    | none =>
      unfold Auth.twitter_callback Auth.callback_inner
      rw [hfs]
    | some os =>
      unfold Auth.twitter_callback Auth.callback_inner
      rw [hfs, htr]
      simp [h200]

/-- Witness for C6: an 11-minute-late callback is rejected and changes
nothing; a successful callback consumes the handshake; a 400 exchange
leaves the collections in place. -/
theorem callback_state_window_witness :
    ((∃ d, (Auth.twitter_callback 700 "n1" "s1"
          ⟨[osSample], [accSample]⟩ envCbFail).1 = Except.error (400, d) ∧
        containsSub d "Invalid or expired state" = true) ∧
      (Auth.twitter_callback 700 "n1" "s1"
        ⟨[osSample], [accSample]⟩ envCbFail).2 = ⟨[osSample], [accSample]⟩) ∧
    (∃ os, Auth.findValidState 100 [osSample] "s1" = some os ∧
      (Auth.twitter_callback 100 "n1" "s1"
        ⟨[osSample], [accSample]⟩ envCbOk).2.states = [osSample].erase os) ∧
    (Auth.twitter_callback 100 "n1" "s1"
      ⟨[osSample], [accSample]⟩ envCbFail).2 = ⟨[osSample], [accSample]⟩ :=
  ⟨(callback_state_window 700 "n1" "s1" ⟨[osSample], [accSample]⟩ envCbFail).1
      (by decide),
   (callback_state_window 100 "n1" "s1" ⟨[osSample], [accSample]⟩ envCbOk).2.1
      (Auth.reauthUpdate 100 accSample "newTok" trNoRefresh 7200 urSample
        osSample) rfl,
   (callback_state_window 100 "n1" "s1" ⟨[osSample], [accSample]⟩ envCbFail).2.2
      (TokenResponse.mk 400 none none none) rfl (by decide)⟩
